import Mathlib

/-!
Verification of the force-directed layout and interaction engine of
`momentum_web` (`src/client/src/components/ForceGraph.jsx`), as a shallow
embedding in Lean 4.  Coordinates are modelled as rationals; JavaScript
falsiness of a number (`v || fallback`) is modelled as the test `v = 0`,
and `null`/`undefined` as `Option.none`.
-/

namespace ForceGraph

/-- An input node of the Adapter snapshot: `{ id, name }` (the `name` field
is the display name used for the label). -/
structure NodeIn where
  id : String
  name : String
  deriving Repr, DecidableEq

/-- An input link of the Adapter snapshot: `{ source, target, value }`.
Before `d3.forceLink` runs, `source` and `target` are raw id strings
(the snapshot format), which is the state `linksData` is in when the
classification pass at lines 33–57 of ForceGraph.jsx reads it. -/
structure LinkIn where
  source : String
  target : String
  value : ℚ
  deriving Repr, DecidableEq

/-- The three node classes assigned by the loop at lines 33–57:
`my-stock` (anchor), `related`, `other`. -/
inductive NodeType where
  | myStock
  | related
  | other
  deriving Repr, DecidableEq

/-- Whether some link of `linksData` connects node id `nid` to an anchor id,
in either direction: the `linksData.some(...)` test at lines 40–45.
The two optional-chaining disjuncts (`link.source?.id === node.id && ...`)
are dead at this program point—`linksData` endpoints are still raw strings,
so `.id` is `undefined` and the comparison is false—hence omitted. -/
def isRelated (myStockCodes : List String) (linksData : List LinkIn)
    (nid : String) : Bool :=
  linksData.any fun l =>
    (l.source = nid && myStockCodes.contains l.target) ||
    (l.target = nid && myStockCodes.contains l.source)

/-- Classification of one node, from the `nodesData.forEach` at
lines 33–57 of ForceGraph.jsx. -/
def classify (myStockCodes : List String) (linksData : List LinkIn)
    (n : NodeIn) : NodeType :=
  if myStockCodes.contains n.id then .myStock
  else if isRelated myStockCodes linksData n.id then .related
  else .other

/-- The radius assigned together with the classification:
30 / 20 / 10 at lines 36, 49, 53. -/
def radiusOf : NodeType → ℚ
  | .myStock => 30
  | .related => 20
  | .other => 10

/-- One entry of `nodePositionsRef.current` (line 9): the last known
coordinates and fixed (pin) coordinates of a node, as written by the
`end` handler (line 132) and by `dragended` (lines 155–160). -/
structure CacheEntry where
  x : ℚ
  y : ℚ
  fx : Option ℚ
  fy : Option ℚ
  deriving Repr, DecidableEq

/-- The position cache `nodePositionsRef.current`: a JavaScript object keyed
by node id, modelled as a partial map. -/
def Cache : Type := String → Option CacheEntry

/-- Assignment `nodePositionsRef.current[id] = e`. -/
def cachePut (c : Cache) (i : String) (e : CacheEntry) : Cache :=
  fun j => if j = i then some e else c j

/-- JavaScript `v || fallback` on a possibly-absent number: `undefined` and
`0` are falsy (NaN, also falsy, is outside the rational model). -/
def jsOrNum : Option ℚ → ℚ → ℚ
  | none, fb => fb
  | some v, fb => if v = 0 then fb else v

/-- JavaScript `v || null` on a possibly-absent, possibly-null number:
`undefined`, `null` and `0` all produce `null`. -/
def jsOrNull : Option (Option ℚ) → Option ℚ
  | none => none
  | some none => none
  | some (some v) => if v = 0 then none else some v

/-- One element of `nodesData`: the live simulation node object. -/
structure SimNode where
  id : String
  name : String
  x : ℚ
  y : ℚ
  fx : Option ℚ
  fy : Option ℚ
  deriving Repr, DecidableEq

/-- The seeding of one `nodesData` element at lines 19–29 of ForceGraph.jsx:
`{ ...d, x: cached?.x || width/2 + (Math.random()-0.5)*100, ..., fx:
cached?.fx || null, fy: cached?.fy || null }`.  `jx`/`jy` stand for the two
`(Math.random() - 0.5) * 100` samples drawn for this node. -/
def seedNode (cache : Cache) (width height jx jy : ℚ) (d : NodeIn) : SimNode :=
  let cached := cache d.id
  { id := d.id
    name := d.name
    x := jsOrNum (cached.map (·.x)) (width / 2 + jx)
    y := jsOrNum (cached.map (·.y)) (height / 2 + jy)
    fx := jsOrNull (cached.map (·.fx))
    fy := jsOrNull (cached.map (·.fy)) }

/-- The simulation control surface the drag handlers touch:
the alpha target and whether the internal timer is running. -/
structure SimCtl where
  alphaTarget : ℚ
  running : Bool
  deriving Repr, DecidableEq

/-- `dragstarted` (lines 138–142): when no other drag gesture is active
(`event.active` is 0), raise the alpha target to 0.1 and restart the timer;
then fix the subject at its current simulated position. -/
def dragstarted (active : ℕ) (ctl : SimCtl) (subj : SimNode) : SimCtl × SimNode :=
  ((if active = 0 then { alphaTarget := 1/10, running := true } else ctl),
   { subj with fx := some subj.x, fy := some subj.y })

/-- `dragged` (lines 144–147): track the pointer with the fixed coordinates. -/
def dragged (px py : ℚ) (subj : SimNode) : SimNode :=
  { subj with fx := some px, fy := some py }

/-- `dragended` (lines 149–161): when no gesture remains active, restore the
alpha target to 0; the unpinning lines (`event.subject.fx = null`) are
commented out in the source, so the subject keeps its fixed coordinates;
finally the subject's current fields are written to the position cache. -/
def dragended (active : ℕ) (ctl : SimCtl) (cache : Cache) (subj : SimNode) :
    SimCtl × Cache × SimNode :=
  ((if active = 0 then { ctl with alphaTarget := 0 } else ctl),
   cachePut cache subj.id ⟨subj.x, subj.y, subj.fx, subj.fy⟩,
   subj)

/-- Modelled from the spec: the stepping of one node by the d3-force engine,
which is loaded from a CDN and is not part of this repository's sources.
Per the spec (§4.2), pinned coordinates are excluded from force-driven
updates and are reimposed each step, while a free axis moves by the net
force displacement; `δ` gives that displacement per node id. -/
def tickNode (δ : String → ℚ × ℚ) (n : SimNode) : SimNode :=
  { n with
    x := match n.fx with | some v => v | none => n.x + (δ n.id).1
    y := match n.fy with | some v => v | none => n.y + (δ n.id).2 }

/-- A sequence of engine steps with per-step force displacements. -/
def applyTicks (δs : List (String → ℚ × ℚ)) (n : SimNode) : SimNode :=
  δs.foldl (fun m δ => tickNode δ m) n

/-- The per-link rest distance the source configures at line 69:
`.distance(100)` wraps the constant 100 into an accessor evaluated for
every link, regardless of its fields. -/
def linkDistance (_l : LinkIn) : ℚ := 100

/-- The per-link spring stiffness the source configures at line 69:
`.strength(0.3)`, again a constant accessor. -/
def linkStrength (_l : LinkIn) : ℚ := 3/10

/-- C1: each node gets exactly one classification, characterized exactly as
the spec states: Anchor iff its id is in the anchor set; Related iff not an
anchor and some link (in either direction) joins it to an anchor id; Other
iff neither; an empty anchor set classifies every node Other; the radius
derived from the classification is 30/20/10 and always positive.  The
classification and radius are functions of the snapshot alone (they are
Lean functions of `myStockCodes`, `linksData`, `n`), hence pure. -/
theorem classification_correct_c1 (myStockCodes : List String)
    (linksData : List LinkIn) (n : NodeIn) :
    (classify myStockCodes linksData n = .myStock ↔
      myStockCodes.contains n.id = true) ∧
    (classify myStockCodes linksData n = .related ↔
      (myStockCodes.contains n.id = false ∧
       isRelated myStockCodes linksData n.id = true)) ∧
    (classify myStockCodes linksData n = .other ↔
      (myStockCodes.contains n.id = false ∧
       isRelated myStockCodes linksData n.id = false)) ∧
    (myStockCodes = [] → classify myStockCodes linksData n = .other) ∧
    radiusOf (classify myStockCodes linksData n) > 0 ∧
    (radiusOf .myStock = 30 ∧ radiusOf .related = 20 ∧ radiusOf .other = 10) := by
  by_cases hA : n.id ∈ myStockCodes
  · refine ⟨by simp [classify, hA], by simp [classify, hA], by simp [classify, hA],
      ?_, by simp [classify, hA, radiusOf], by simp [radiusOf]⟩
    rintro rfl; exact absurd hA (List.not_mem_nil _)
  · by_cases hR : isRelated myStockCodes linksData n.id = true
    · refine ⟨by simp [classify, hA, hR], by simp [classify, hA, hR],
        by simp [classify, hA, hR], by rintro rfl; simp [isRelated] at hR,
        by simp [classify, hA, hR, radiusOf], by simp [radiusOf]⟩
    · refine ⟨by simp [classify, hA, hR], by simp [classify, hA, hR],
        by simp [classify, hA, hR], by simp [classify, hA, hR],
        by simp [classify, hA, hR, radiusOf], by simp [radiusOf]⟩

/-- A cache holding node "A" at the left edge of the canvas: coordinates
(0, 5), pinned there (fx = 0, fy = 5), exactly what `dragended` writes after
the user drags "A" to x = 0. -/
def cacheZeroA : Cache := fun j => if j = "A" then some ⟨0, 5, some 0, some 5⟩ else none

/-- C2, evaluated at the failing input: node "A" has a cache entry
(0, 5, fx 0, fy 5), yet with canvas 800×600 and jitter (7, −3) the seeding
of lines 19–29 places it at x = 407 (not the cached 0) and clears its pin
(fx becomes null, not the cached 0): JavaScript `||` treats the cached
coordinate 0 as absent.  The spec's seeding guarantee is the intent (the
source comments say "Restore cached position if exists" and "Keep the node
fixed after drag"); the `||` fallback is the slip. -/
theorem seeding_drops_zero_cache_c2 :
    (seedNode cacheZeroA 800 600 7 (-3) ⟨"A", "Alpha"⟩).x = 407 ∧
    (seedNode cacheZeroA 800 600 7 (-3) ⟨"A", "Alpha"⟩).y = 5 ∧
    (seedNode cacheZeroA 800 600 7 (-3) ⟨"A", "Alpha"⟩).fx = none ∧
    (seedNode cacheZeroA 800 600 7 (-3) ⟨"A", "Alpha"⟩).fy = some 5 ∧
    cacheZeroA "A" = some ⟨0, 5, some 0, some 5⟩ ∧
    (407 : ℚ) ≠ 0 := by
  refine ⟨?_, ?_, ?_, ?_, ?_, by norm_num⟩ <;>
    norm_num [seedNode, cacheZeroA, jsOrNum, jsOrNull]

/-- Stepping the engine preserves a node's fixed coordinates. -/
theorem applyTicks_keeps_fixed (px py : ℚ) (δs : List (String → ℚ × ℚ)) :
    ∀ n : SimNode, n.fx = some px → n.fy = some py →
    (applyTicks δs n).fx = some px ∧ (applyTicks δs n).fy = some py := by
  induction δs with
  | nil => intro n hx hy; exact ⟨hx, hy⟩
  | cons δ δs ih =>
    intro n hx hy
    exact ih (tickNode δ n) (by simp [tickNode, hx]) (by simp [tickNode, hy])

/-- A node sitting at its fixed coordinates is held there by every further
engine step. -/
theorem applyTicks_holds_at (px py : ℚ) (δs : List (String → ℚ × ℚ)) :
    ∀ n : SimNode, n.fx = some px → n.fy = some py → n.x = px → n.y = py →
    (applyTicks δs n).x = px ∧ (applyTicks δs n).y = py := by
  induction δs with
  | nil => intro n _ _ hx hy; exact ⟨hx, hy⟩
  | cons δ δs ih =>
    intro n hfx hfy _ _
    exact ih (tickNode δ n) (by simp [tickNode, hfx]) (by simp [tickNode, hfy])
      (by simp [tickNode, hfx]) (by simp [tickNode, hfy])

/-- C3: after `dragended` following a pointer move to (px, py), the node's
fixed coordinates are exactly (px, py) and an entry with them is written to
the position cache; every subsequent engine step leaves the node exactly at
(px, py), while a non-pinned node still follows the net force displacement;
and no handler (drag start, drag move, drag end, engine step) ever clears a
set fixed coordinate — the pin is never released. -/
theorem pin_durability_c3 (ctl : SimCtl) (cache : Cache) (subj0 : SimNode)
    (active : ℕ) (px py : ℚ) :
    (dragended active ctl cache (dragged px py subj0)).2.2.fx = some px ∧
    (dragended active ctl cache (dragged px py subj0)).2.2.fy = some py ∧
    (dragended active ctl cache (dragged px py subj0)).2.1 subj0.id =
      some ⟨subj0.x, subj0.y, some px, some py⟩ ∧
    (∀ δs, δs ≠ [] →
      (applyTicks δs (dragended active ctl cache (dragged px py subj0)).2.2).x = px ∧
      (applyTicks δs (dragended active ctl cache (dragged px py subj0)).2.2).y = py) ∧
    (∀ (m : SimNode) (δ : String → ℚ × ℚ), m.fx = none → m.fy = none →
      (tickNode δ m).x = m.x + (δ m.id).1 ∧ (tickNode δ m).y = m.y + (δ m.id).2) ∧
    (∀ (n : SimNode) (a : ℕ) (p q : ℚ) (δ : String → ℚ × ℚ), n.fx ≠ none →
      (dragstarted a ctl n).2.fx ≠ none ∧ (dragged p q n).fx ≠ none ∧
      (dragended a ctl cache n).2.2.fx ≠ none ∧ (tickNode δ n).fx ≠ none) := by
  refine ⟨rfl, rfl, ?_, ?_, ?_, ?_⟩
  · simp [dragended, dragged, cachePut]
  · rintro (_ | ⟨δ, δs⟩) hne
    · exact absurd rfl hne
    · have hstep : applyTicks (δ :: δs)
          (dragended active ctl cache (dragged px py subj0)).2.2 =
          applyTicks δs (tickNode δ (dragged px py subj0)) := rfl
      rw [hstep]
      exact applyTicks_holds_at px py δs _ (by simp [tickNode, dragged])
        (by simp [tickNode, dragged]) (by simp [tickNode, dragged])
        (by simp [tickNode, dragged])
  · intro m δ hx hy
    exact ⟨by simp [tickNode, hx], by simp [tickNode, hy]⟩
  · intro n a p q δ hn
    refine ⟨by simp [dragstarted], by simp [dragged], by simpa [dragended] using hn, ?_⟩
    rcases h : n.fx with _ | v
    · exact absurd h hn
    · simp [tickNode, h]

/-- A low-weight and a high-weight link, as the snapshot would carry them. -/
def loLink : LinkIn := ⟨"A", "B", 1/10⟩

/-- See `loLink`. -/
def hiLink : LinkIn := ⟨"A", "C", 9/10⟩

/-- C4 counterexample: the source configures `.distance(100).strength(0.3)`,
so a link of weight 0.9 gets exactly the same stiffness and the same rest
distance as a link of weight 0.1 — the higher-weight link neither pulls
harder nor targets a smaller separation. -/
theorem link_force_ignores_weight_c4 :
    hiLink.value > loLink.value ∧
    linkStrength hiLink = linkStrength loLink ∧
    linkDistance hiLink = linkDistance loLink ∧
    ¬(linkStrength hiLink > linkStrength loLink ∧
      linkDistance hiLink < linkDistance loLink) := by
  norm_num [loLink, hiLink, linkStrength, linkDistance]

/-- C4 as amended: every link is given the constant spring stiffness 0.3 and
the constant rest distance 100, independent of its weight. -/
theorem link_force_constant_c4 (l1 l2 : LinkIn) :
    linkStrength l1 = 3/10 ∧ linkDistance l1 = 100 ∧
    linkStrength l1 = linkStrength l2 ∧ linkDistance l1 = linkDistance l2 := by
  norm_num [linkStrength, linkDistance]

/-- C10: on drag start with no other active gesture the alpha target is
raised to 0.1 and the timer restarted; with another gesture active the
control state is untouched; on drag end with no gesture remaining the alpha
target is restored to 0 (the timer state is untouched), and with another
gesture still active nothing changes — so the reheat never stacks and ends
with the last gesture. -/
theorem alpha_reheat_c10 (ctl : SimCtl) (cache : Cache) (s : SimNode) (a : ℕ) :
    ((dragstarted 0 ctl s).1.alphaTarget = 1/10 ∧
     (dragstarted 0 ctl s).1.running = true) ∧
    (a ≠ 0 → (dragstarted a ctl s).1 = ctl) ∧
    ((dragended 0 ctl cache s).1.alphaTarget = 0 ∧
     (dragended 0 ctl cache s).1.running = ctl.running) ∧
    (a ≠ 0 → (dragended a ctl cache s).1 = ctl) := by
  refine ⟨⟨rfl, rfl⟩, fun h => by simp [dragstarted, h], ⟨rfl, rfl⟩,
    fun h => by simp [dragended, h]⟩

/-- The SVG attributes the tick handler paints: one (id, cx, cy) per circle. -/
structure Painted where
  nodesPx : List (String × ℚ × ℚ)
  deriving Repr, DecidableEq

/-- The `tick` handler registered at lines 113–127: it re-paints the line,
circle and label attributes from the current node and link objects.  It
never touches `nodePositionsRef`, so its effect on (cache, painted state)
is: painted rebuilt, cache returned as received. -/
def onTick (nodes : List SimNode) (cache : Cache) (_p : Painted) : Cache × Painted :=
  (cache, ⟨nodes.map fun n => (n.id, n.x, n.y)⟩)

/-- The `end` handler registered at lines 130–134: when the simulation ends,
every node's current fields are written to `nodePositionsRef.current`. -/
def onEnd (nodes : List SimNode) (cache : Cache) : Cache :=
  nodes.foldl (fun c n => cachePut c n.id ⟨n.x, n.y, n.fx, n.fy⟩) cache

/-- `onEnd` leaves every id outside the node list untouched. -/
theorem onEnd_outside (nodes : List SimNode) :
    ∀ (cache : Cache) (i : String), (∀ n ∈ nodes, n.id ≠ i) →
    onEnd nodes cache i = cache i := by
  induction nodes with
  | nil => intro cache i _; rfl
  | cons n ns ih =>
    intro cache i hi
    have hstep : onEnd (n :: ns) cache = onEnd ns (cachePut cache n.id ⟨n.x, n.y, n.fx, n.fy⟩) := rfl
    rw [hstep, ih _ i fun m hm => hi m (List.mem_cons_of_mem n hm)]
    have hne : n.id ≠ i := hi n (List.mem_cons_self n ns)
    simp [cachePut, Ne.symm hne]

/-- With distinct ids, `onEnd` records every node's current fields. -/
theorem onEnd_records (nodes : List SimNode) :
    ∀ cache : Cache, (nodes.map (·.id)).Nodup →
    ∀ n ∈ nodes, onEnd nodes cache n.id = some ⟨n.x, n.y, n.fx, n.fy⟩ := by
  induction nodes with
  | nil => intro cache _ n hn; exact absurd hn (List.not_mem_nil n)
  | cons m ms ih =>
    intro cache hnd n hn
    have hstep : onEnd (m :: ms) cache = onEnd ms (cachePut cache m.id ⟨m.x, m.y, m.fx, m.fy⟩) := rfl
    rcases List.mem_cons.mp hn with h | h
    · subst h
      rw [hstep, onEnd_outside ms _ n.id ?_]
      · simp [cachePut]
      · intro k hk hknid
        have : n.id ∈ ms.map (·.id) := hknid ▸ List.mem_map_of_mem (·.id) hk
        exact (List.nodup_cons.mp (by simpa using hnd)).1 this
    · rw [hstep]
      exact ih _ (List.nodup_cons.mp (by simpa using hnd)).2 n h

/-- A node of the simulation and a painted frame for concrete evaluation. -/
def nodeA : SimNode := ⟨"A", "Alpha", 5, 6, none, none⟩

/-- A cache still holding an entry for a node "B" that the latest snapshot
no longer contains. -/
def cacheStaleB : Cache := fun j => if j = "B" then some ⟨1, 2, none, none⟩ else none

/-- C5 counterexample: with the engine holding exactly node "A" at (5, 6)
and the cache holding only a stale entry for the dropped node "B", a
simulation tick (the `tick` handler) writes nothing for "A" and evicts
nothing: the cache is bit-for-bit the one it received, while the claim says
every tick updates the cache for all engine nodes and prunes absent ids.
The drag-move handler likewise writes only the subject's fx/fy, not the
cache. -/
theorem tick_leaves_cache_c5 :
    (onTick [nodeA] cacheStaleB ⟨[]⟩).1 "A" = none ∧
    (onTick [nodeA] cacheStaleB ⟨[]⟩).1 "B" = some ⟨1, 2, none, none⟩ ∧
    (onTick [nodeA] cacheStaleB ⟨[]⟩).1 = cacheStaleB ∧
    (onTick [nodeA] cacheStaleB ⟨[]⟩).2 = ⟨[("A", 5, 6)]⟩ := by
  refine ⟨?_, ?_, rfl, rfl⟩ <;> simp [onTick, cacheStaleB]

/-- C5 as amended: the cache is written when the simulation ends (every
engine node's fields are recorded, distinct ids assumed as ids are unique
within a snapshot) and on drag-end for the dragged node; a tick leaves the
cache exactly as received, a drag-move touches only the subject's fixed
coordinates, and no operation ever evicts an entry: ids absent from the
latest snapshot persist in the cache (never pruned). -/
theorem cache_update_schedule_c5 (nodes : List SimNode) (cache : Cache)
    (p : Painted) (subj : SimNode) (ctl : SimCtl) (active : ℕ) (px py : ℚ)
    (i : String) (hnd : (nodes.map (·.id)).Nodup) (hi : ∀ n ∈ nodes, n.id ≠ i) :
    (onTick nodes cache p).1 = cache ∧
    (∀ n ∈ nodes, onEnd nodes cache n.id = some ⟨n.x, n.y, n.fx, n.fy⟩) ∧
    onEnd nodes cache i = cache i ∧
    (dragended active ctl cache subj).2.1 subj.id =
      some ⟨subj.x, subj.y, subj.fx, subj.fy⟩ ∧
    (∀ j, j ≠ subj.id → (dragended active ctl cache subj).2.1 j = cache j) ∧
    (dragged px py subj).id = subj.id ∧ (dragged px py subj).x = subj.x := by
  refine ⟨rfl, onEnd_records nodes cache hnd, onEnd_outside nodes cache i hi,
    ?_, ?_, rfl, rfl⟩
  · simp [dragended, cachePut]
  · intro j hj; simp [dragended, cachePut, hj]

/-- C5 witness: the single engine node "A", the stale cache, and the
untouched id "C". -/
theorem cache_update_schedule_c5_witness :
    (onTick [nodeA] cacheStaleB ⟨[]⟩).1 = cacheStaleB ∧
    (∀ n ∈ [nodeA], onEnd [nodeA] cacheStaleB n.id = some ⟨n.x, n.y, n.fx, n.fy⟩) ∧
    onEnd [nodeA] cacheStaleB "C" = cacheStaleB "C" ∧
    (dragended 0 ⟨0, true⟩ cacheStaleB nodeA).2.1 nodeA.id =
      some ⟨nodeA.x, nodeA.y, nodeA.fx, nodeA.fy⟩ ∧
    (∀ j, j ≠ nodeA.id → (dragended 0 ⟨0, true⟩ cacheStaleB nodeA).2.1 j = cacheStaleB j) ∧
    (dragged 1 2 nodeA).id = nodeA.id ∧ (dragged 1 2 nodeA).x = nodeA.x :=
  cache_update_schedule_c5 [nodeA] cacheStaleB ⟨[]⟩ nodeA ⟨0, true⟩ 0 1 2 "C"
    (by simp) (by intro n hn; simp at hn; subst hn; simp [nodeA])

/-- A simulation-lifecycle operation of the effect body. -/
inductive SimOp where
  | stop (sim : ℕ)
  | clearSvg
  | start (sim : ℕ)
  deriving Repr, DecidableEq

/-- The simulation-lifecycle operations of one run of the effect body
(lines 59–76), in source order: stop the previous simulation if one exists
(lines 60–62), clear the SVG (line 65), then create — and thereby start —
the new simulation (lines 68–74; a d3 simulation starts its internal timer
on creation). -/
def effectOps (prev : Option ℕ) (newSim : ℕ) : List SimOp :=
  (match prev with
   | some s => [SimOp.stop s]
   | none => []) ++ [SimOp.clearSvg, SimOp.start newSim]

/-- The cleanup the effect returns (lines 170–172): stop the current run. -/
def cleanupOps (current : ℕ) : List SimOp := [SimOp.stop current]

/-- The set of simulations whose tick loop is live, advanced by one
lifecycle operation. -/
def runStep (running : List ℕ) : SimOp → List ℕ
  | .stop s => running.filter (· ≠ s)
  | .clearSvg => running
  | .start s => s :: running

/-- The live set after a sequence of lifecycle operations. -/
def runTrace (running : List ℕ) (ops : List SimOp) : List ℕ :=
  ops.foldl runStep running

/-- C6: a run of the effect first stops the in-flight simulation (when one
exists) and only afterwards starts the new one; along every prefix of the
run at most one simulation is live, so two tick callbacks never coexist;
the run ends with exactly the new simulation live; and the teardown cleanup
stops the running simulation. -/
theorem stop_before_start_c6 (prev : Option ℕ) (newSim cur : ℕ)
    (running : List ℕ) (hlen : running.length ≤ 1)
    (hmem : ∀ x ∈ running, prev = some x) :
    (∀ s, prev = some s →
      effectOps prev newSim = [SimOp.stop s, SimOp.clearSvg, SimOp.start newSim]) ∧
    (prev = none → effectOps prev newSim = [SimOp.clearSvg, SimOp.start newSim]) ∧
    (∀ k, (runTrace running ((effectOps prev newSim).take k)).length ≤ 1) ∧
    runTrace running (effectOps prev newSim) = [newSim] ∧
    runTrace [cur] (cleanupOps cur) = [] := by
  have hcases : running = [] ∨ ∃ p, prev = some p ∧ running = [p] := by
    rcases running with _ | ⟨x, xs⟩
    · exact Or.inl rfl
    · rcases xs with _ | ⟨y, ys⟩
      · exact Or.inr ⟨x, hmem x (by simp), rfl⟩
      · simp at hlen
  rcases prev with _ | p
  · have hrun : running = [] := by
      rcases hcases with h | ⟨q, hq, _⟩
      · exact h
      · simp at hq
    subst hrun
    refine ⟨fun s hs => by simp at hs, fun _ => rfl, ?_, rfl, ?_⟩
    · rintro (_ | _ | _ | k) <;>
        simp [effectOps, runTrace, runStep, List.take]
    · simp [runTrace, cleanupOps, runStep]
  · have hrun : running = [] ∨ running = [p] := by
      rcases hcases with h | ⟨q, hq, hr⟩
      · exact Or.inl h
      · exact Or.inr (by rw [hr, Option.some.inj hq])
    refine ⟨fun s hs => by rw [Option.some.inj hs]; simp [effectOps], fun h => by simp at h,
      ?_, ?_, ?_⟩
    · rcases hrun with rfl | rfl <;> rintro (_ | _ | _ | _ | k) <;>
        simp [effectOps, runTrace, runStep, List.take]
    · rcases hrun with rfl | rfl <;> simp [effectOps, runTrace, runStep]
    · simp [runTrace, cleanupOps, runStep]

/-- C6 witness: a previous simulation 0 is live and run 1 arrives. -/
theorem stop_before_start_c6_witness :
    (∀ s, some 0 = some s →
      effectOps (some 0) 1 = [SimOp.stop s, SimOp.clearSvg, SimOp.start 1]) ∧
    (some 0 = none → effectOps (some 0) 1 = [SimOp.clearSvg, SimOp.start 1]) ∧
    (∀ k, (runTrace [0] ((effectOps (some 0) 1).take k)).length ≤ 1) ∧
    runTrace [0] (effectOps (some 0) 1) = [1] ∧
    runTrace [7] (cleanupOps 7) = [] :=
  stop_before_start_c6 (some 0) 1 7 [0] (by simp)
    (by intro x hx; simp at hx; subst hx; rfl)

/-- A JavaScript number as the simulation carries it: finite, NaN or an
infinity — this models the (im)possibility of numerical blow-up. -/
inductive JSNum where
  | fin (q : ℚ)
  | nan
  | posInf
  | negInf
  deriving Repr, DecidableEq

/-- `Number.isFinite`. -/
def JSNum.isFinite : JSNum → Bool
  | .fin _ => true
  | _ => false

/-- The node fields the tick callback reads: id and current coordinates,
which may have become non-finite. -/
structure TickNodeView where
  id : String
  x : JSNum
  y : JSNum
  deriving Repr, DecidableEq

/-- The tick callback at lines 113–127 as a transformer on (simulation
nodes, painted circle attributes): it copies each node's current x, y into
the painted attributes verbatim.  It contains no finiteness test, writes no
node position or velocity, and emits no warning. -/
def tickCallback (nodes : List TickNodeView) :
    List TickNodeView × List (String × JSNum × JSNum) :=
  (nodes, nodes.map fun n => (n.id, n.x, n.y))

/-- A node whose x has blown up to NaN. -/
def nanNode : TickNodeView := ⟨"A", JSNum.nan, JSNum.fin 3⟩

/-- C7 counterexample: when node "A"'s position has become NaN, the tick
callback leaves it NaN — it is not reset to the canvas center (400 for an
800-wide canvas), its non-finite value is painted straight into the
rendered frame, and nothing in the component (nor any other handler)
performs such a reset. -/
theorem no_self_heal_c7 :
    (tickCallback [nanNode]).1 = [nanNode] ∧
    nanNode.x = JSNum.nan ∧
    JSNum.nan.isFinite = false ∧
    (tickCallback [nanNode]).2 = [("A", JSNum.nan, JSNum.fin 3)] ∧
    JSNum.nan ≠ JSNum.fin 400 := by
  exact ⟨rfl, rfl, rfl, rfl, by simp⟩

/-- C7 as amended: the tick callback never alters any node's position —
finite or not — and paints every node's coordinates verbatim, so a
non-finite position propagates unchanged to the render sink with no
self-healing and no warning. -/
theorem tick_propagates_nonfinite_c7 (nodes : List TickNodeView) :
    (tickCallback nodes).1 = nodes ∧
    (∀ n ∈ nodes, (n.id, n.x, n.y) ∈ (tickCallback nodes).2) := by
  exact ⟨rfl, fun n hn => List.mem_map_of_mem _ hn⟩

/-- `linksData`, built at line 30 of ForceGraph.jsx:
`links.map(d => ({ ...d }))` — a shallow clone of every link, with no
validation of its endpoints against the node set.  Exactly this list is
handed to `d3.forceLink` at line 69. -/
def linksData (links : List LinkIn) : List LinkIn :=
  links.map fun d => { source := d.source, target := d.target, value := d.value }

/-- The links whose endpoints do not both resolve to a node id of the
snapshot: the spec's "invalid links".  The source computes no such set and
no count of it. -/
def danglingLinks (nodes : List NodeIn) (links : List LinkIn) : List LinkIn :=
  links.filter fun l =>
    !(nodes.any fun n => n.id = l.source) || !(nodes.any fun n => n.id = l.target)

/-- Cloning a link field-by-field is the identity on its value. -/
theorem linksData_eq (links : List LinkIn) : linksData links = links := by
  exact List.map_id links

/-- C8 counterexample: for the snapshot with single node "A" and the single
link ("A", "GHOST"), the link's target matches no node — one invalid link —
yet `linksData` still contains it: the component drops nothing and computes
no dropped-link count, and this unfiltered list is what reaches the force
engine. -/
theorem dangling_link_not_dropped_c8 :
    (danglingLinks [⟨"A", "Alpha"⟩] [⟨"A", "GHOST", 1⟩]).length = 1 ∧
    linksData [⟨"A", "GHOST", 1⟩] = [⟨"A", "GHOST", 1⟩] ∧
    (⟨"A", "GHOST", 1⟩ : LinkIn) ∈ linksData [⟨"A", "GHOST", 1⟩] := by
  refine ⟨?_, linksData_eq _, ?_⟩
  · simp [danglingLinks]
  · rw [linksData_eq]
    exact List.mem_singleton.mpr rfl

/-- C8 as amended: the component performs no link validation — every link of
the snapshot, dangling or not, is passed unfiltered to the force engine,
and in particular every invalid link is still present; no dropped-link
count is produced. -/
theorem links_pass_unfiltered_c8 (nodes : List NodeIn) (links : List LinkIn) :
    linksData links = links ∧
    (∀ l ∈ danglingLinks nodes links, l ∈ linksData links) ∧
    (linksData links).length = links.length := by
  refine ⟨linksData_eq links, ?_, by rw [linksData_eq]⟩
  intro l hl
  rw [linksData_eq]
  exact List.mem_of_mem_filter hl

/-- A node object as the component sees it at any stage: the snapshot fields
plus the fields the effect body may add (position, pin, style) — absent
(`undefined`) before they are set. -/
structure NodeObj where
  id : String
  name : String
  x : Option ℚ
  y : Option ℚ
  fx : Option ℚ
  fy : Option ℚ
  type : Option String
  radius : Option ℚ
  color : Option String
  deriving Repr, DecidableEq

/-- The `node.type` string set at lines 35, 48, 52. -/
def typeStr : NodeType → String
  | .myStock => "my-stock"
  | .related => "related"
  | .other => "other"

/-- The `node.color` string set at lines 37, 50, 54. -/
def colorStr : NodeType → String
  | .myStock => "#007AFF"
  | .related => "#34C759"
  | .other => "#D1D1D6"

/-- A JavaScript object store: objects addressed by reference, `next` the
first unused reference.  Aliasing is explicit: two lists holding the same
reference see each other's mutations. -/
structure Store (α : Type) where
  next : ℕ
  mem : ℕ → α

/-- Pointwise update of the store contents. -/
def hUpd {α : Type} (h : ℕ → α) (r : ℕ) (v : α) : ℕ → α :=
  fun i => if i = r then v else h i

/-- Allocation of one fresh object (an object literal evaluation). -/
def alloc1 {α : Type} (s : Store α) (v : α) : Store α × ℕ :=
  (⟨s.next + 1, hUpd s.mem s.next v⟩, s.next)

/-- Allocation of a list of fresh objects, returning their references. -/
def allocList {α : Type} : Store α → List α → Store α × List ℕ
  | s, [] => (s, [])
  | s, v :: vs =>
    let p := alloc1 s v
    let q := allocList p.1 vs
    (q.1, p.2 :: q.2)

/-- The object literal `{ ...d, x: ..., y: ..., fx: ..., fy: ... }` of
lines 22–28: every field of the props node copied, then position and pin
state seeded from the cache through JavaScript `||`. -/
def cloneObj (cache : Cache) (w h jx jy : ℚ) (o : NodeObj) : NodeObj :=
  { o with
    x := some (jsOrNum ((cache o.id).map (·.x)) (w / 2 + jx))
    y := some (jsOrNum ((cache o.id).map (·.y)) (h / 2 + jy))
    fx := jsOrNull ((cache o.id).map (·.fx))
    fy := jsOrNull ((cache o.id).map (·.fy)) }

/-- The body of the `nodesData.forEach` at lines 33–57, as the in-place
mutation of one `nodesData` object: its type, radius and color fields are
set from its classification. -/
def applyStyle (mc : List String) (links : List LinkIn) (o : NodeObj) : NodeObj :=
  { o with
    type := some (typeStr (classify mc links ⟨o.id, o.name⟩))
    radius := some (radiusOf (classify mc links ⟨o.id, o.name⟩))
    color := some (colorStr (classify mc links ⟨o.id, o.name⟩)) }

/-- `nodes.map(d => ({ ...d, ... }))` (lines 19–29) over the store: read
each props object and allocate a fresh clone; `jit i` is the pair of random
jitter samples drawn for the i-th node. -/
def cloneNodesStep (cache : Cache) (w h : ℚ) (jit : ℕ → ℚ × ℚ)
    (s : Store NodeObj) (propRefs : List ℕ) : Store NodeObj × List ℕ :=
  allocList s
    (propRefs.enum.map fun p => cloneObj cache w h (jit p.1).1 (jit p.1).2 (s.mem p.2))

/-- The classification pass over the store: each `nodesData` object is
mutated in place by `applyStyle`. -/
def classifyStep (mc : List String) (links : List LinkIn)
    (s : Store NodeObj) (rs : List ℕ) : Store NodeObj :=
  rs.foldl (fun st r => ⟨st.next, hUpd st.mem r (applyStyle mc links (st.mem r))⟩) s

/-- The data phase of one effect run (lines 18–57): clone the props nodes
into `nodesData`, clone the links into `linksData`, classify the node
clones in place.  Returns (final store, nodesData references, linksData). -/
def renderData (mc : List String) (cache : Cache) (w h : ℚ) (jit : ℕ → ℚ × ℚ)
    (s : Store NodeObj) (propRefs : List ℕ) (links : List LinkIn) :
    Store NodeObj × List ℕ × List LinkIn :=
  let c := cloneNodesStep cache w h jit s propRefs
  (classifyStep mc links c.1 c.2, c.2, linksData links)

/-- Allocation never rewrites an already-allocated reference. -/
theorem allocList_mem_lt {α : Type} (vs : List α) :
    ∀ (s : Store α) (r : ℕ), r < s.next → (allocList s vs).1.mem r = s.mem r := by
  induction vs with
  | nil => intro s r _; rfl
  | cons v vs ih =>
    intro s r hr
    show (allocList (alloc1 s v).1 vs).1.mem r = s.mem r
    rw [ih (alloc1 s v).1 r (by simp [alloc1]; omega)]
    have hne : r ≠ s.next := by omega
    simp [alloc1, hUpd, hne]

/-- Allocation hands out only fresh references. -/
theorem allocList_refs_ge {α : Type} (vs : List α) :
    ∀ (s : Store α) (r : ℕ), r ∈ (allocList s vs).2 → s.next ≤ r := by
  induction vs with
  | nil => intro s r hr; simp [allocList] at hr
  | cons v vs ih =>
    intro s r hr
    have hr2 : r = s.next ∨ r ∈ (allocList (alloc1 s v).1 vs).2 := by
      simpa [allocList, alloc1] using hr
    rcases hr2 with rfl | hmem
    · exact le_refl _
    · have h := ih (alloc1 s v).1 r hmem
      simp [alloc1] at h
      omega

/-- The classification pass writes only at the references it is given. -/
theorem classifyStep_outside (mc : List String) (links : List LinkIn)
    (rs : List ℕ) :
    ∀ (s : Store NodeObj) (r : ℕ), r ∉ rs →
    (classifyStep mc links s rs).mem r = s.mem r := by
  induction rs with
  | nil => intro s r _; rfl
  | cons a as ih =>
    intro s r hr
    have h1 : r ≠ a := fun h => hr (h ▸ List.mem_cons_self a as)
    have h2 : r ∉ as := fun h => hr (List.mem_cons_of_mem a h)
    show (classifyStep mc links
      ⟨s.next, hUpd s.mem a (applyStyle mc links (s.mem a))⟩ as).mem r = s.mem r
    rw [ih _ r h2]
    simp [hUpd, h1]

/-- C9: one run of the data phase leaves every props object — every
reference allocated before the run, in particular every element of the
props nodes array — bit-for-bit unchanged; the `nodesData` the simulation
mutates consists exclusively of freshly allocated clones, disjoint from the
props references; and `linksData` is a clone of the props links with the
same content, the props links value itself untouched. -/
theorem props_not_mutated_c9 (mc : List String) (cache : Cache) (w h : ℚ)
    (jit : ℕ → ℚ × ℚ) (s : Store NodeObj) (propRefs : List ℕ)
    (links : List LinkIn) (hwf : ∀ r ∈ propRefs, r < s.next) :
    (∀ r, r < s.next →
      (renderData mc cache w h jit s propRefs links).1.mem r = s.mem r) ∧
    (∀ r ∈ propRefs,
      (renderData mc cache w h jit s propRefs links).1.mem r = s.mem r) ∧
    (∀ r ∈ (renderData mc cache w h jit s propRefs links).2.1, s.next ≤ r) ∧
    (∀ r ∈ propRefs,
      r ∉ (renderData mc cache w h jit s propRefs links).2.1) ∧
    (renderData mc cache w h jit s propRefs links).2.2 = links := by
  have hfresh : ∀ r ∈ (cloneNodesStep cache w h jit s propRefs).2, s.next ≤ r :=
    fun r hr => allocList_refs_ge _ _ r hr
  have hmain : ∀ r, r < s.next →
      (renderData mc cache w h jit s propRefs links).1.mem r = s.mem r := by
    intro r hr
    show (classifyStep mc links (cloneNodesStep cache w h jit s propRefs).1
      (cloneNodesStep cache w h jit s propRefs).2).mem r = s.mem r
    rw [classifyStep_outside mc links _ _ r
      (fun hmem => absurd (hfresh r hmem) (by omega))]
    exact allocList_mem_lt _ s r hr
  refine ⟨hmain, fun r hr => hmain r (hwf r hr), hfresh, ?_, linksData_eq links⟩
  intro r hr hmem
  exact absurd (hfresh r hmem) (by have := hwf r hr; omega)

/-- A props node object as delivered by the Adapter: only id and name set. -/
def obj0 : NodeObj := ⟨"A", "Alpha", none, none, none, none, none, none, none⟩

/-- The cache of a first layout request: empty. -/
def emptyCache : Cache := fun _ => none

/-- C9 witness: a store holding the single props object `obj0` at
reference 0; after the run with anchor set {"A"} the props object is
unchanged and is not among the `nodesData` references. -/
theorem props_not_mutated_c9_witness :
    (renderData ["A"] emptyCache 800 600 (fun _ => (0, 0))
      ⟨1, fun _ => obj0⟩ [0] []).1.mem 0 =
      (⟨1, fun _ => obj0⟩ : Store NodeObj).mem 0 ∧
    (0 : ℕ) ∉ (renderData ["A"] emptyCache 800 600 (fun _ => (0, 0))
      ⟨1, fun _ => obj0⟩ [0] []).2.1 :=
  ⟨(props_not_mutated_c9 ["A"] emptyCache 800 600 (fun _ => (0, 0))
      ⟨1, fun _ => obj0⟩ [0] [] (by intro r hr; simp at hr; subst hr; exact Nat.zero_lt_one)).1 0 Nat.zero_lt_one,
   (props_not_mutated_c9 ["A"] emptyCache 800 600 (fun _ => (0, 0))
      ⟨1, fun _ => obj0⟩ [0] [] (by intro r hr; simp at hr; subst hr; exact Nat.zero_lt_one)).2.2.2.1 0 (by simp)⟩

end ForceGraph
